import Mathlib

/-!
Verification of djangae/contrib/gauth/models.py.

The module replaces Django's relational permission model with flattened
codename lists.  We embed, from the source:

* the module-level permission-choices cache (PERMISSIONS_LIST and
  get_permission_choices), with Python truthiness made explicit;
* the declared schema of Group, PermissionsMixin and GaeAbstractBaseUser;
* the PermissionsMixin permission-check methods, with the Django backend
  chain abstracted as an oracle parameter;
* GaeUserManager.pre_create_google_user with Python dict semantics;
* the username RegexValidator, with Python re semantics for the
  anchors of the pattern.

Python strings compare by code point, and Python's sorted() is an
ascending stable sort; both are embedded below.
-/

namespace Gauth

/-! ## Python string and tuple comparison

Python compares strings lexicographically by code point, and compares
tuples componentwise.  sorted() sorts ascending and stably; the order on
(codename, description) pairs is antisymmetric (equivalent pairs are
equal), so any correct sort produces the same list, and we use
List.insertionSort as the executable model of sorted(). -/

/-- Code-point comparison of single characters, as Python compares them. -/
def charLt (a b : Char) : Bool := decide (a.val.toNat < b.val.toNat)

/-- Lexicographic code-point order on character lists: Python string `<`. -/
def charListLt : List Char → List Char → Bool
  | _, [] => false
  | [], _ :: _ => true
  | a :: as, b :: bs =>
    if charLt a b then true
    else if charLt b a then false
    else charListLt as bs

/-- Python string `<`. -/
def strLt (a b : String) : Bool := charListLt a.data b.data

/-- Python string `<=` (total order, so `a <= b` is `not (b < a)`). -/
def strLe (a b : String) : Bool := !(strLt b a)

/-- Python comparison of (codename, description) tuples: compare the first
components, and on ties the second. -/
def pairLe (a b : String × String) : Bool :=
  if strLt a.1 b.1 then true
  else if strLt b.1 a.1 then false
  else strLe a.2 b.2

/-- The order used by sorted() on the permission-choice pairs, as a relation. -/
def pairLeP (a b : String × String) : Prop := pairLe a b = true

instance : DecidableRel pairLeP := fun a b => by unfold pairLeP; infer_instance

/-- Python sorted() on a list of (codename, description) pairs: an ascending
stable sort with respect to tuple comparison. -/
def pySorted (l : List (String × String)) : List (String × String) :=
  List.insertionSort pairLeP l

/-! ## Settings, registry, and get_permission_choices -/

/-- One registered model's _meta options, as used by the scan:
opts.model_name (used by Django's get_permission_codename) and
opts.verbose_name_raw (used in the description). -/
structure ModelOpts where
  model_name : String
  verbose_name_raw : String
deriving DecidableEq

/-- The two Django settings read by get_permission_choices:
AUTOGENERATED_PERMISSIONS (`none` when the setting is absent, so that
getattr falls back to the default ('add', 'change', 'delete')) and
MANUAL_PERMISSIONS (getattr default []). -/
structure DjangoSettings where
  autogenerated_permissions : Option (List String)
  manual_permissions : List (String × String)

/-- The model registry: get_apps(), and get_models(app) for each app. -/
structure AppRegistry where
  apps : List (List ModelOpts)

/-- All registered models, in scan order (for app in get_apps():
for model in get_models(app)). -/
def AppRegistry.models (reg : AppRegistry) : List ModelOpts := reg.apps.flatten

/-- Django's get_permission_codename(action, opts): the string
action + "_" + opts.model_name (e.g. "add_user"). -/
def get_permission_codename (action : String) (opts : ModelOpts) : String :=
  action ++ "_" ++ opts.model_name

/-- The autogenerated part of get_permission_choices: the triple loop
for app in get_apps(): for model in get_models(app): for action in
AUTO_PERMISSIONS: result.append((get_permission_codename(action, opts),
'Can %s %s' % (action, opts.verbose_name_raw))). -/
def autoGenerated (st : DjangoSettings) (reg : AppRegistry) :
    List (String × String) :=
  reg.models.flatMap fun m =>
    (st.autogenerated_permissions.getD ["add", "change", "delete"]).map
      fun action =>
        (get_permission_codename action m,
         "Can " ++ action ++ " " ++ m.verbose_name_raw)

/-- The recomputation path of get_permission_choices:
result = getattr(settings, "MANUAL_PERMISSIONS", []); the scan appends the
autogenerated pairs; the function returns sorted(result). -/
def computeChoices (st : DjangoSettings) (reg : AppRegistry) :
    List (String × String) :=
  pySorted (st.manual_permissions ++ autoGenerated st reg)

/-- get_permission_choices, with the module-global PERMISSIONS_LIST passed
in and returned as explicit state.  The guard is Python truthiness:
`if PERMISSIONS_LIST:` is false both for None and for an empty list, so an
empty cached list triggers recomputation. -/
def get_permission_choices (cache : Option (List (String × String)))
    (st : DjangoSettings) (reg : AppRegistry) :
    List (String × String) × Option (List (String × String)) :=
  match cache with
  | some l =>
    if l.isEmpty then
      let r := computeChoices st reg
      (r, some r)
    else
      (l, some l)
  | none =>
    let r := computeChoices st reg
    (r, some r)

/-! ## Declared model schemas

Each Django field declaration is embedded as a FieldDef record; each model
class is embedded as the list of its declared fields, in declaration
order.  The choices keyword arguments are the value of
get_permission_choices() as called while the class bodies execute, i.e.
with the module-global PERMISSIONS_LIST still None. -/

/-- The Django field constructors used in this module.  A ListField stores
a list of values of its base field directly on the record; a
RelatedSetField stores a set of keys referring to the target model. -/
inductive FieldType
  | charField (max_length : Nat)
  | emailField
  | booleanField
  | dateTimeField
  | listFieldOf (base : FieldType)
  | relatedSetField (target : String)
deriving DecidableEq

/-- The default keyword argument of a field declaration. -/
inductive FieldDefault
  | noDefault
  | defaultBool (b : Bool)
  | defaultTimezoneNow
deriving DecidableEq

/-- The validators attached to a field in this module.  regexUserID is
validators.RegexValidator applied to the compiled pattern of 21 digits
anchored at both ends, with message 'User Id should be 21 digits.' and
code 'invalid'. -/
inductive ValidatorSpec
  | regexUserID
deriving DecidableEq

/-- One declared field: its attribute name and the keyword arguments of
its declaration (absent keyword arguments take Django's defaults:
unique=False, null=False, blank=False, no default, no choices, no
validators). -/
structure FieldDef where
  name : String
  ftype : FieldType
  unique : Bool
  null : Bool
  blank : Bool
  default : FieldDefault
  choices : Option (List (String × String))
  validators : List ValidatorSpec
deriving DecidableEq

/-- The declared fields of class Group: name = models.CharField(max_length=80,
unique=True) and permissions = ListField(models.CharField(max_length=500,
choices=get_permission_choices()), blank=True,
choices=get_permission_choices()). -/
def Group_fields (st : DjangoSettings) (reg : AppRegistry) : List FieldDef :=
  [ { name := "name", ftype := FieldType.charField 80, unique := true,
      null := false, blank := false, default := FieldDefault.noDefault,
      choices := none, validators := [] },
    { name := "permissions",
      ftype := FieldType.listFieldOf (FieldType.charField 500),
      unique := false, null := false, blank := true,
      default := FieldDefault.noDefault,
      choices := some (get_permission_choices none st reg).1,
      validators := [] } ]

/-- The declared fields of class PermissionsMixin:
is_superuser = models.BooleanField(default=False),
groups = RelatedSetField(Group, blank=True) and
user_permissions = ListField(models.CharField(max_length=500), blank=True,
choices=get_permission_choices()). -/
def PermissionsMixin_fields (st : DjangoSettings) (reg : AppRegistry) :
    List FieldDef :=
  [ { name := "is_superuser", ftype := FieldType.booleanField,
      unique := false, null := false, blank := false,
      default := FieldDefault.defaultBool false, choices := none,
      validators := [] },
    { name := "groups", ftype := FieldType.relatedSetField "Group",
      unique := false, null := false, blank := true,
      default := FieldDefault.noDefault, choices := none, validators := [] },
    { name := "user_permissions",
      ftype := FieldType.listFieldOf (FieldType.charField 500),
      unique := false, null := false, blank := true,
      default := FieldDefault.noDefault,
      choices := some (get_permission_choices none st reg).1,
      validators := [] } ]

/-- The declared fields of class GaeAbstractBaseUser:
username = models.CharField(max_length=21, unique=True, null=True,
validators=[the 21-digit RegexValidator]),
first_name = models.CharField(max_length=30, blank=True),
last_name = models.CharField(max_length=30, blank=True),
email = models.EmailField(),
is_staff = models.BooleanField(default=False),
is_active = models.BooleanField(default=True) and
date_joined = models.DateTimeField(default=timezone.now). -/
def GaeAbstractBaseUser_fields : List FieldDef :=
  [ { name := "username", ftype := FieldType.charField 21, unique := true,
      null := true, blank := false, default := FieldDefault.noDefault,
      choices := none, validators := [ValidatorSpec.regexUserID] },
    { name := "first_name", ftype := FieldType.charField 30, unique := false,
      null := false, blank := true, default := FieldDefault.noDefault,
      choices := none, validators := [] },
    { name := "last_name", ftype := FieldType.charField 30, unique := false,
      null := false, blank := true, default := FieldDefault.noDefault,
      choices := none, validators := [] },
    { name := "email", ftype := FieldType.emailField, unique := false,
      null := false, blank := false, default := FieldDefault.noDefault,
      choices := none, validators := [] },
    { name := "is_staff", ftype := FieldType.booleanField, unique := false,
      null := false, blank := false,
      default := FieldDefault.defaultBool false, choices := none,
      validators := [] },
    { name := "is_active", ftype := FieldType.booleanField, unique := false,
      null := false, blank := false, default := FieldDefault.defaultBool true,
      choices := none, validators := [] },
    { name := "date_joined", ftype := FieldType.dateTimeField,
      unique := false, null := false, blank := false,
      default := FieldDefault.defaultTimezoneNow, choices := none,
      validators := [] } ]

/-! ## PermissionsMixin permission checks

has_perm, has_perms and has_module_perms read only the is_active and
is_superuser flags of the instance before falling back to Django's
backend helpers _user_has_perm and _user_has_module_perms, which are
external to this module and are abstracted as oracle parameters. -/

/-- The flags of a user instance read by the permission-check methods. -/
structure PermUser where
  is_active : Bool
  is_superuser : Bool

/-- PermissionsMixin.has_perm: active superusers have all permissions,
otherwise the backend chain (_user_has_perm, abstracted as the oracle
backendPerm) decides. -/
def has_perm {O : Type} (backendPerm : String → Option O → Bool)
    (self : PermUser) (perm : String) (obj : Option O) : Bool :=
  if self.is_active && self.is_superuser then true
  else backendPerm perm obj

/-- PermissionsMixin.has_perms: the loop
for perm in perm_list: if not self.has_perm(perm, obj): return False,
then return True. -/
def has_perms {O : Type} (backendPerm : String → Option O → Bool)
    (self : PermUser) (perm_list : List String) (obj : Option O) : Bool :=
  match perm_list with
  | [] => true
  | perm :: rest =>
    if !(has_perm backendPerm self perm obj) then false
    else has_perms backendPerm self rest obj

/-- PermissionsMixin.has_module_perms: active superusers have all
permissions, otherwise the backend chain (_user_has_module_perms,
abstracted as the oracle backendModule) decides. -/
def has_module_perms (backendModule : String → Bool) (self : PermUser)
    (app_label : String) : Bool :=
  if self.is_active && self.is_superuser then true
  else backendModule app_label

/-! ## GaeUserManager.pre_create_google_user

The method builds a Python dict of field values and passes it to
self.create(**values).  We embed the dict as an association list with
Python dict get and setitem semantics, and the created record as the
final dict. -/

/-- The field values appearing in pre_create_google_user.  vPassword
carries whether the password is usable; make_password(None) produces an
unusable one. -/
inductive FieldValue
  | vStr (s : String)
  | vNone
  | vBool (b : Bool)
  | vPassword (usable : Bool)
deriving DecidableEq

/-- Python dict lookup on the association list (keys are unique in a real
dict; lookup takes the first binding). -/
def dictGet (d : List (String × FieldValue)) (k : String) :
    Option FieldValue :=
  match d with
  | [] => none
  | kv :: rest => if kv.1 = k then some kv.2 else dictGet rest k

/-- Python dict item assignment: replace the binding of the key if
present, otherwise append a new binding. -/
def dictSet (d : List (String × FieldValue)) (k : String) (v : FieldValue) :
    List (String × FieldValue) :=
  match d with
  | [] => [(k, v)]
  | kv :: rest =>
    if kv.1 = k then (k, v) :: rest else kv :: dictSet rest k v

/-- Python dict.update: assign each binding of the update in order. -/
def dictUpdate (d : List (String × FieldValue)) :
    List (String × FieldValue) → List (String × FieldValue)
  | [] => d
  | kv :: rest => dictUpdate (dictSet d kv.1 kv.2) rest

/-- The last binding of a key in an update list: the value that survives
after the whole update is applied over the key. -/
def dictGetLast (us : List (String × FieldValue)) (k : String) :
    Option FieldValue :=
  match us with
  | [] => none
  | kv :: rest =>
    match dictGetLast rest k with
    | some v => some v
    | none => if kv.1 = k then some kv.2 else none

/-- Split a character list at the last occurrence of sep (Python
rsplit(sep, 1)); none when sep does not occur, which raises ValueError in
Python. -/
def splitAtLast (sep : Char) : List Char → Option (List Char × List Char)
  | [] => none
  | c :: rest =>
    match splitAtLast sep rest with
    | some (l, r) => some (c :: l, r)
    | none => if c = sep then some ([], rest) else none

/-- Django BaseUserManager.normalize_email: strip the email, split it at
the last "@" and lowercase the domain part; if there is no "@" (the
ValueError branch) the email is returned unchanged.  Python str.strip and
str.lower are embedded as String.trim and String.toLower. -/
def normalize_email (email : String) : String :=
  match splitAtLast '@' email.trim.data with
  | none => email
  | some (local_part, domain_part) =>
    String.mk local_part ++ "@" ++ (String.mk domain_part).toLower

/-- make_password(None): an unusable password. -/
def make_password_none : FieldValue := FieldValue.vPassword false

/-- GaeUserManager.pre_create_google_user(email, **extra_fields):
values = dict(is_active=True); values.update(**extra_fields);
values.update(email=self.normalize_email(email), username=None,
password=make_password(None)); return self.create(**values). -/
def pre_create_google_user (email : String)
    (extra_fields : List (String × FieldValue)) :
    List (String × FieldValue) :=
  let values : List (String × FieldValue) :=
    [("is_active", FieldValue.vBool true)]
  let values := dictUpdate values extra_fields
  let values := dictUpdate values
    [("email", FieldValue.vStr (normalize_email email)),
     ("username", FieldValue.vNone),
     ("password", make_password_none)]
  values

/-! ## The username RegexValidator

The pattern is 21 digit-class atoms between the two anchors, compiled by
Python 2 re without re.UNICODE, so the digit class is the ASCII digits.
RegexValidator calls regex.search(value): the start anchor only matches
at position 0, and the end anchor matches at the end of the string or
just before a newline that ends the string.  The accepted strings are
therefore exactly 21 ASCII digits, possibly followed by one trailing
newline character. -/

/-- Exactly 21 ASCII digits. -/
def digits21 (cs : List Char) : Bool :=
  decide (cs.length = 21) && cs.all Char.isDigit

/-- Python re.search with the username pattern, as a whole-string test. -/
def regexSearchUserID (s : String) : Bool :=
  digits21 s.data ||
    (decide (s.data.length = 22) && decide (s.data.getLast? = some '\n') &&
      digits21 s.data.dropLast)

/-- The outcome of running the field's validators. -/
inductive ValidationOutcome
  | valid
  | invalid
deriving DecidableEq

/-- Running the validators of GaeAbstractBaseUser.username on a field
value.  The field is null=True and Django skips validators on None; on a
string the RegexValidator raises ValidationError with code 'invalid'
exactly when the search fails. -/
def username_run_validators (v : Option String) : ValidationOutcome :=
  match v with
  | none => ValidationOutcome.valid
  | some s =>
    if regexSearchUserID s then ValidationOutcome.valid
    else ValidationOutcome.invalid

/-- A settings object with neither AUTOGENERATED_PERMISSIONS nor
MANUAL_PERMISSIONS set. -/
def settingsEmpty : DjangoSettings := ⟨none, []⟩

/-- A registry with no models registered. -/
def registryEmpty : AppRegistry := ⟨[]⟩

/-- A registry with a single registered model named "user". -/
def registryUser : AppRegistry := ⟨[[⟨"user", "user"⟩]]⟩

/-! ## Order lemmas for the embedded Python comparison -/

theorem charLt_eq_of {a b : Char} (hab : charLt a b = false)
    (hba : charLt b a = false) : a = b := by
  have h1 : ¬ a.val.toNat < b.val.toNat := by simpa [charLt] using hab
  have h2 : ¬ b.val.toNat < a.val.toNat := by simpa [charLt] using hba
  exact Char.ext (UInt32.toNat.inj (by omega))

theorem charListLt_nil_r (as : List Char) : charListLt as [] = false := by
  cases as <;> rfl

theorem charListLt_nil_l (b : Char) (bs : List Char) :
    charListLt [] (b :: bs) = true := rfl

theorem charListLt_cons {a b : Char} {as bs : List Char} :
    charListLt (a :: as) (b :: bs) = true ↔
      a.val.toNat < b.val.toNat ∨
        (a.val.toNat = b.val.toNat ∧ charListLt as bs = true) := by
  simp only [charListLt, charLt]
  by_cases h1 : a.val.toNat < b.val.toNat
  · simp [h1]
  · by_cases h2 : b.val.toNat < a.val.toNat
    · simp [h1, h2]
      intro he
      omega
    · have he : a.val.toNat = b.val.toNat := by omega
      simp [h1, h2, he]

theorem charListLt_irrefl : ∀ as : List Char, charListLt as as = false := by
  intro as
  induction as with
  | nil => rfl
  | cons a as ih =>
    have h : charLt a a = false := by simp [charLt]
    simp [charListLt, h, ih]

theorem charListLt_trans : ∀ as bs cs : List Char,
    charListLt as bs = true → charListLt bs cs = true →
    charListLt as cs = true := by
  intro as
  induction as with
  | nil =>
    intro bs cs h1 h2
    cases cs with
    | nil =>
      cases bs with
      | nil => exact absurd h1 (by simp [charListLt_nil_r])
      | cons b bs => exact absurd h2 (by simp [charListLt_nil_r])
    | cons c cs => exact charListLt_nil_l c cs
  | cons a as ih =>
    intro bs cs h1 h2
    cases bs with
    | nil => exact absurd h1 (by simp [charListLt_nil_r])
    | cons b bs =>
      cases cs with
      | nil => exact absurd h2 (by simp [charListLt_nil_r])
      | cons c cs =>
        rcases charListLt_cons.mp h1 with hlt | ⟨heq, htail⟩ <;>
          rcases charListLt_cons.mp h2 with hlt2 | ⟨heq2, htail2⟩ <;>
            apply charListLt_cons.mpr
        · left; omega
        · left; omega
        · left; omega
        · exact Or.inr ⟨by omega, ih bs cs htail htail2⟩

theorem charListLt_asymm : ∀ as bs : List Char, charListLt as bs = true →
    charListLt bs as = false := by
  intro as
  induction as with
  | nil =>
    intro bs h
    exact charListLt_nil_r bs
  | cons a as ih =>
    intro bs h
    cases bs with
    | nil => exact absurd h (by simp [charListLt_nil_r])
    | cons b bs =>
      cases hr : charListLt (b :: bs) (a :: as) with
      | false => rfl
      | true =>
        rcases charListLt_cons.mp h with hlt | ⟨heq, htail⟩ <;>
          rcases charListLt_cons.mp hr with hlt2 | ⟨heq2, htail2⟩
        · omega
        · omega
        · omega
        · exact absurd htail2 (by simp [ih bs htail])

theorem charListLt_eq_of : ∀ as bs : List Char, charListLt as bs = false →
    charListLt bs as = false → as = bs := by
  intro as
  induction as with
  | nil =>
    intro bs h1 h2
    cases bs with
    | nil => rfl
    | cons b bs => exact absurd h1 (by simp [charListLt_nil_l])
  | cons a as ih =>
    intro bs h1 h2
    cases bs with
    | nil => exact absurd h2 (by simp [charListLt_nil_l])
    | cons b bs =>
      have hab : ¬ a.val.toNat < b.val.toNat := fun h =>
        absurd ((@charListLt_cons a b as bs).mpr (Or.inl h)) (by simp [h1])
      have hba : ¬ b.val.toNat < a.val.toNat := fun h =>
        absurd ((@charListLt_cons b a bs as).mpr (Or.inl h)) (by simp [h2])
      have hch : a = b := Char.ext (UInt32.toNat.inj (by omega))
      have ht1 : charListLt as bs = false := by
        cases ht : charListLt as bs with
        | false => rfl
        | true =>
          exact absurd ((@charListLt_cons a b as bs).mpr (Or.inr ⟨by omega, ht⟩))
            (by simp [h1])
      have ht2 : charListLt bs as = false := by
        cases ht : charListLt bs as with
        | false => rfl
        | true =>
          exact absurd ((@charListLt_cons b a bs as).mpr (Or.inr ⟨by omega, ht⟩))
            (by simp [h2])
      rw [hch, ih bs ht1 ht2]

theorem charListLt_neg_trans : ∀ as bs cs : List Char,
    charListLt bs as = false → charListLt cs bs = false →
    charListLt cs as = false := by
  intro as bs cs h1 h2
  cases h : charListLt cs as with
  | false => rfl
  | true =>
    cases hab : charListLt as bs with
    | true =>
      exact absurd (charListLt_trans cs as bs h hab) (by simp [h2])
    | false =>
      have he : as = bs := charListLt_eq_of as bs hab h1
      rw [he] at h
      exact absurd h (by simp [h2])

theorem pairLe_total (a b : String × String) : pairLeP a b ∨ pairLeP b a := by
  unfold pairLeP pairLe strLe strLt
  cases h1 : charListLt a.1.data b.1.data with
  | true => left; simp [h1]
  | false =>
    cases h2 : charListLt b.1.data a.1.data with
    | true => right; simp [h2]
    | false =>
      cases h3 : charListLt b.2.data a.2.data with
      | false => left; simp [h1, h2, h3]
      | true => right; simp [h1, h2, charListLt_asymm _ _ h3]

theorem pairLe_trans (a b c : String × String) (h1 : pairLeP a b)
    (h2 : pairLeP b c) : pairLeP a c := by
  unfold pairLeP pairLe strLe strLt at h1 h2 ⊢
  have key1 : charListLt a.1.data b.1.data = true ∨
      (a.1.data = b.1.data ∧ charListLt b.2.data a.2.data = false) := by
    cases g1 : charListLt a.1.data b.1.data with
    | true => exact Or.inl rfl
    | false =>
      cases g2 : charListLt b.1.data a.1.data with
      | true => rw [g1, g2] at h1; simp at h1
      | false =>
        rw [g1, g2] at h1
        simp at h1
        exact Or.inr ⟨charListLt_eq_of _ _ g1 g2, h1⟩
  have key2 : charListLt b.1.data c.1.data = true ∨
      (b.1.data = c.1.data ∧ charListLt c.2.data b.2.data = false) := by
    cases g1 : charListLt b.1.data c.1.data with
    | true => exact Or.inl rfl
    | false =>
      cases g2 : charListLt c.1.data b.1.data with
      | true => rw [g1, g2] at h2; simp at h2
      | false =>
        rw [g1, g2] at h2
        simp at h2
        exact Or.inr ⟨charListLt_eq_of _ _ g1 g2, h2⟩
  rcases key1 with l1 | ⟨e1, t1⟩ <;> rcases key2 with l2 | ⟨e2, t2⟩
  · simp [charListLt_trans _ _ _ l1 l2]
  · rw [← e2]
    simp [l1]
  · rw [e1]
    simp [l2]
  · rw [e1.trans e2]
    simp [charListLt_irrefl]
    exact charListLt_neg_trans _ _ _ t1 t2

/-! ## Claims about get_permission_choices -/

/-- C10: a call of get_permission_choices that computes (here: from the
initial None state) returns the manually configured permissions merged
with the autogenerated ones as one list, sorted ascending in the
lexicographic order on (codename, description) pairs. -/
theorem get_permission_choices_sorted_merge (st : DjangoSettings)
    (reg : AppRegistry) :
    List.Sorted pairLeP (get_permission_choices none st reg).1 ∧
    ((get_permission_choices none st reg).1).Perm
      (st.manual_permissions ++ autoGenerated st reg) := by
  constructor
  · exact @List.sorted_insertionSort _ pairLeP _ ⟨pairLe_total⟩
      ⟨pairLe_trans⟩ _
  · exact List.perm_insertionSort pairLeP _

/-- C1 counterexample: with no manual permissions and an empty registry
the first call returns the empty list and caches it; the empty list is
falsy in Python, so a second call recomputes, and the codename of a model
named "user" registered after the first call does appear in the second
call's result — the claim that no later call can contain it is false. -/
theorem get_permission_choices_new_model_appears :
    get_permission_choices none settingsEmpty registryEmpty
      = ([], some []) ∧
    ("add_user", "Can add user") ∈
      (get_permission_choices
        (get_permission_choices none settingsEmpty registryEmpty).2
        settingsEmpty registryUser).1 := by
  constructor
  · rfl
  · decide

/-- C1 amended: the cache test is Python truthiness, so the computed list
is only an effective cache when it is non-empty.  Whenever the cached
PERMISSIONS_LIST is a non-empty list, every later call returns it
unchanged — for any settings and any registry, so no model registered
after that point can appear. -/
theorem get_permission_choices_cached_stable
    (l : List (String × String)) (st : DjangoSettings) (reg : AppRegistry)
    (h : l ≠ []) :
    get_permission_choices (some l) st reg = (l, some l) := by
  unfold get_permission_choices
  cases l with
  | nil => exact absurd rfl h
  | cons x xs => rfl

/-- Witness for the amended C1 theorem at a concrete non-empty cache. -/
theorem get_permission_choices_cached_stable_witness :
    ([("add_user", "Can add user")] : List (String × String)) ≠ [] ∧
    get_permission_choices (some [("add_user", "Can add user")])
        settingsEmpty registryUser
      = ([("add_user", "Can add user")],
         some [("add_user", "Can add user")]) :=
  ⟨by decide, get_permission_choices_cached_stable _ _ _ (by decide)⟩

/-- C2: when the AUTOGENERATED_PERMISSIONS setting is absent (so the
default ('add', 'change', 'delete') applies), the registry scan generates
for every registered model exactly one (codename, description) pair per
action — the codename being Django's permission codename for the action
and model, and the description being "Can " then the action then the
model's verbose name. -/
theorem autoGenerated_per_model (st : DjangoSettings) (reg : AppRegistry)
    (h : st.autogenerated_permissions = none) :
    autoGenerated st reg = reg.models.flatMap fun m =>
      [ (get_permission_codename "add" m, "Can add " ++ m.verbose_name_raw),
        (get_permission_codename "change" m,
          "Can change " ++ m.verbose_name_raw),
        (get_permission_codename "delete" m,
          "Can delete " ++ m.verbose_name_raw) ] := by
  unfold autoGenerated
  rw [h]
  rfl

/-- Witness for C2 on concrete settings and a concrete registry. -/
theorem autoGenerated_per_model_witness :
    settingsEmpty.autogenerated_permissions = none ∧
    autoGenerated settingsEmpty registryUser
      = registryUser.models.flatMap fun m =>
        [ (get_permission_codename "add" m,
            "Can add " ++ m.verbose_name_raw),
          (get_permission_codename "change" m,
            "Can change " ++ m.verbose_name_raw),
          (get_permission_codename "delete" m,
            "Can delete " ++ m.verbose_name_raw) ] :=
  ⟨rfl, autoGenerated_per_model settingsEmpty registryUser rfl⟩

/-! ## Dict lemmas and pre_create_google_user -/

theorem dictGet_dictSet (d : List (String × FieldValue)) (k k2 : String)
    (v : FieldValue) :
    dictGet (dictSet d k v) k2 = if k2 = k then some v else dictGet d k2 := by
  induction d with
  | nil =>
    by_cases h : k2 = k
    · subst h
      simp [dictSet, dictGet]
    · simp [dictSet, dictGet, h, Ne.symm h]
  | cons kv rest ih =>
    by_cases h1 : kv.1 = k
    · by_cases h2 : k2 = k
      · subst h2
        simp [dictSet, dictGet, h1]
      · have h3 : ¬ kv.1 = k2 := by rw [h1]; exact Ne.symm h2
        simp [dictSet, dictGet, h1, h2, Ne.symm h2, h3]
    · by_cases h3 : kv.1 = k2
      · have h2 : ¬ k2 = k := by rw [← h3]; exact fun hh => h1 hh
        simp [dictSet, dictGet, h1, h2, h3]
      · simp [dictSet, dictGet, h1, h3, ih]

theorem dictGet_dictUpdate (us : List (String × FieldValue)) :
    ∀ d k, dictGet (dictUpdate d us) k =
      match dictGetLast us k with
      | some v => some v
      | none => dictGet d k := by
  induction us with
  | nil => intro d k; rfl
  | cons kv rest ih =>
    intro d k
    have step : dictUpdate d (kv :: rest)
        = dictUpdate (dictSet d kv.1 kv.2) rest := rfl
    rw [step, ih]
    cases hl : dictGetLast rest k with
    | some v => simp [dictGetLast, hl]
    | none =>
      by_cases h : kv.1 = k
      · simp [dictGetLast, hl, dictGet_dictSet, h]
      · simp [dictGetLast, hl, dictGet_dictSet, h, Ne.symm h]

/-- C3: for every email and every extra_fields mapping, the record created
by GaeUserManager.pre_create_google_user has username None, an unusable
password and the normalized email, none of which extra_fields can
override; is_active is True unless extra_fields overrides it (the value
of its last binding in extra_fields). -/
theorem pre_create_google_user_spec (email : String)
    (extra_fields : List (String × FieldValue)) :
    dictGet (pre_create_google_user email extra_fields) "username"
      = some FieldValue.vNone ∧
    dictGet (pre_create_google_user email extra_fields) "password"
      = some (FieldValue.vPassword false) ∧
    dictGet (pre_create_google_user email extra_fields) "email"
      = some (FieldValue.vStr (normalize_email email)) ∧
    dictGet (pre_create_google_user email extra_fields) "is_active"
      = some ((dictGetLast extra_fields "is_active").getD
          (FieldValue.vBool true)) := by
  unfold pre_create_google_user
  simp only [dictGet_dictUpdate]
  refine ⟨by simp [dictGetLast], by simp [dictGetLast, make_password_none],
    by simp [dictGetLast], ?_⟩
  cases h : dictGetLast extra_fields "is_active" <;>
    simp [dictGetLast, dictGet, h]

/-! ## Schema claims -/

/-- C4: the Group model declares exactly the fields name and permissions;
name is a character field of maximal length 80 marked unique, and
permissions is a list of codename strings stored directly on the record
(a ListField, not a relation to another model), whose allowed values are
the process-wide computed permission choices. -/
theorem Group_schema (st : DjangoSettings) (reg : AppRegistry) :
    (Group_fields st reg).map FieldDef.name = ["name", "permissions"] ∧
    (∀ f ∈ Group_fields st reg, f.name = "name" →
      f.ftype = FieldType.charField 80 ∧ f.unique = true) ∧
    (∀ f ∈ Group_fields st reg, f.name = "permissions" →
      f.ftype = FieldType.listFieldOf (FieldType.charField 500) ∧
      f.choices = some (get_permission_choices none st reg).1 ∧
      ∀ tgt, f.ftype ≠ FieldType.relatedSetField tgt) := by
  refine ⟨rfl, ?_, ?_⟩ <;> intro f hf hname <;>
    simp only [Group_fields, List.mem_cons, List.mem_singleton] at hf <;>
    rcases hf with rfl | rfl | hf <;> simp_all

/-- C5: PermissionsMixin declares exactly three data fields: the boolean
is_superuser with default False, the set-valued relation groups referring
to Group, and user_permissions, a list of codename strings stored
directly on the user record (a ListField, not a relation to a permission
model). -/
theorem PermissionsMixin_schema (st : DjangoSettings) (reg : AppRegistry) :
    (PermissionsMixin_fields st reg).map FieldDef.name
      = ["is_superuser", "groups", "user_permissions"] ∧
    (∀ f ∈ PermissionsMixin_fields st reg, f.name = "is_superuser" →
      f.ftype = FieldType.booleanField ∧
      f.default = FieldDefault.defaultBool false) ∧
    (∀ f ∈ PermissionsMixin_fields st reg, f.name = "groups" →
      f.ftype = FieldType.relatedSetField "Group") ∧
    (∀ f ∈ PermissionsMixin_fields st reg, f.name = "user_permissions" →
      f.ftype = FieldType.listFieldOf (FieldType.charField 500) ∧
      f.choices = some (get_permission_choices none st reg).1 ∧
      ∀ tgt, f.ftype ≠ FieldType.relatedSetField tgt) := by
  refine ⟨rfl, ?_, ?_, ?_⟩ <;> intro f hf hname <;>
    simp only [PermissionsMixin_fields, List.mem_cons,
      List.mem_singleton] at hf <;>
    rcases hf with rfl | rfl | rfl | hf <;> simp_all

/-- C7: GaeAbstractBaseUser declares exactly the identity fields of the
spec: username (a character field of maximal length 21, unique and
nullable), first_name and last_name, email, is_staff with default False,
is_active with default True, and date_joined defaulting to the current
time (timezone.now) at creation. -/
theorem GaeAbstractBaseUser_schema :
    GaeAbstractBaseUser_fields.map FieldDef.name
      = ["username", "first_name", "last_name", "email", "is_staff",
         "is_active", "date_joined"] ∧
    (∀ f ∈ GaeAbstractBaseUser_fields, f.name = "username" →
      f.ftype = FieldType.charField 21 ∧ f.unique = true ∧
      f.null = true) ∧
    (∀ f ∈ GaeAbstractBaseUser_fields, f.name = "first_name" →
      f.ftype = FieldType.charField 30) ∧
    (∀ f ∈ GaeAbstractBaseUser_fields, f.name = "last_name" →
      f.ftype = FieldType.charField 30) ∧
    (∀ f ∈ GaeAbstractBaseUser_fields, f.name = "email" →
      f.ftype = FieldType.emailField) ∧
    (∀ f ∈ GaeAbstractBaseUser_fields, f.name = "is_staff" →
      f.ftype = FieldType.booleanField ∧
      f.default = FieldDefault.defaultBool false) ∧
    (∀ f ∈ GaeAbstractBaseUser_fields, f.name = "is_active" →
      f.ftype = FieldType.booleanField ∧
      f.default = FieldDefault.defaultBool true) ∧
    (∀ f ∈ GaeAbstractBaseUser_fields, f.name = "date_joined" →
      f.ftype = FieldType.dateTimeField ∧
      f.default = FieldDefault.defaultTimezoneNow) := by
  decide

/-! ## Permission-check claims -/

/-- C8: a user instance with is_active and is_superuser both set passes
has_perm for every permission and object and has_module_perms for every
app label, whatever every backend answers — the backend oracles are
universally quantified, so no backend is consulted. -/
theorem superuser_has_all_perms {O : Type}
    (backendPerm : String → Option O → Bool)
    (backendModule : String → Bool) (u : PermUser)
    (hA : u.is_active = true) (hS : u.is_superuser = true) :
    (∀ perm obj, has_perm backendPerm u perm obj = true) ∧
    (∀ app_label, has_module_perms backendModule u app_label = true) := by
  constructor
  · intro perm obj
    simp [has_perm, hA, hS]
  · intro app_label
    simp [has_module_perms, hA, hS]

/-- Witness for C8 at a concrete superuser and all-denying backends. -/
theorem superuser_has_all_perms_witness :
    (PermUser.mk true true).is_active = true ∧
    (PermUser.mk true true).is_superuser = true ∧
    has_perm (fun (_ : String) (_ : Option Unit) => false)
      (PermUser.mk true true) "djangae.add_user" none = true ∧
    has_module_perms (fun _ => false) (PermUser.mk true true)
      "djangae" = true :=
  ⟨rfl, rfl,
   (@superuser_has_all_perms Unit (fun _ _ => false) (fun _ => false)
     (PermUser.mk true true) rfl rfl).1 "djangae.add_user" none,
   (@superuser_has_all_perms Unit (fun _ _ => false) (fun _ => false)
     (PermUser.mk true true) rfl rfl).2 "djangae"⟩

/-- C9: has_perms returns True exactly when has_perm holds of every
permission in the list (for the same object), and in particular it
returns True on the empty list. -/
theorem has_perms_iff_all {O : Type} (backendPerm : String → Option O → Bool)
    (u : PermUser) (obj : Option O) (perm_list : List String) :
    (has_perms backendPerm u perm_list obj = true ↔
      ∀ perm ∈ perm_list, has_perm backendPerm u perm obj = true) ∧
    has_perms backendPerm u [] obj = true := by
  refine ⟨?_, rfl⟩
  induction perm_list with
  | nil => simp [has_perms]
  | cons p ps ih =>
    cases h : has_perm backendPerm u p obj <;>
      simp [has_perms, h, ih]

/-! ## The username validator claim -/

/-- C6: the code contradicts the claim (and its own error message
'User Id should be 21 digits.'): under Python re semantics the end anchor
of the pattern also matches just before a trailing newline, so the
22-character value of 21 digits followed by a newline — not a string of
exactly 21 decimal digits — passes the RegexValidator instead of being
rejected with code 'invalid'.  On None, on exactly 21 digits, and on
other strings the validator behaves as the claim states. -/
theorem username_validator_trailing_newline :
    username_run_validators (some "123456789012345678901\n")
      = ValidationOutcome.valid ∧
    ¬(decide ("123456789012345678901\n".data.length = 21) = true ∧
      "123456789012345678901\n".data.all Char.isDigit = true) ∧
    username_run_validators none = ValidationOutcome.valid ∧
    username_run_validators (some "123456789012345678901")
      = ValidationOutcome.valid ∧
    username_run_validators (some "12345678901234567890")
      = ValidationOutcome.invalid ∧
    username_run_validators (some "1234567890123456789012")
      = ValidationOutcome.invalid ∧
    username_run_validators (some "abcdefghijklmnopqrstu")
      = ValidationOutcome.invalid := by
  decide

end Gauth
